import Mathlib

/-!
Shallow embedding of the yagwt-cli workspace engine (Go) in Lean 4.

Each definition is a direct translation of the corresponding Go function:
  - internal/core/errors.go        : error model (codes, details, hints)
  - internal/core/workspace.go     : Workspace data model
  - internal/core/engine.go        : List / Get / Resolve / Remove
  - internal/core (selector file)  : ParseSelector, normalizePath
  - internal/lock (lock file)      : Acquire retry loop with backoff
  - internal/metadata (store file) : Load
  - internal/cleanup (plan/policy) : GeneratePlan, sortActions, policies
  - internal/filter/filter.go      : ActivityFilter.Match, parseDuration

Conventions: Go `time.Time` values are modelled as `Int` epoch seconds and
`time.Duration` as `Int` seconds; Go maps keyed by string are modelled either
as association lists or as functions built by the same insertion folds the
source performs; filesystem-dependent helpers (`normalizePath`, which calls
`filepath.Abs`, and JSON decoding from `encoding/json`) are taken as explicit
function parameters, so every theorem quantifies over them.
-/

namespace Yagwt

/-- Error codes from internal/core/errors.go (E_DIRTY, E_NOT_FOUND, ...). -/
inductive ErrorCode
  | dirty
  | notFound
  | ambiguous
  | git
  | policy
  | locked
  | broken
  | conflict
  | timeout
  | config
deriving DecidableEq, Repr

/-- An actionable hint attached to an error (errors.go `Hint`). -/
structure ErrHint where
  message : String
  command : String
deriving DecidableEq, Repr

/-- A detail value: Go uses `interface\x7b\x7d`; the engine only ever stores strings
and integers in the details map. -/
inductive Detail
  | str (s : String)
  | num (n : Int)
deriving DecidableEq, Repr

/-- Structured error (errors.go `Error`). Details are modelled as an
association list in insertion order (Go uses a map). -/
structure CoreError where
  code : ErrorCode
  message : String
  details : List (String × Detail)
  hints : List ErrHint
deriving DecidableEq, Repr

/-- errors.go `NewError`. -/
def NewError (code : ErrorCode) (message : String) : CoreError :=
  ⟨code, message, [], []⟩

/-- errors.go `(*Error).WithDetail`. -/
def CoreError.WithDetail (e : CoreError) (key : String) (value : Detail) : CoreError :=
  ⟨e.code, e.message, e.details ++ [(key, value)], e.hints⟩

/-- errors.go `(*Error).WithHint`. -/
def CoreError.WithHint (e : CoreError) (message command : String) : CoreError :=
  ⟨e.code, e.message, e.details, e.hints ++ [⟨message, command⟩]⟩

/-- workspace.go `Target`. -/
structure Target where
  type : String
  ref : String
  short : String
  upstream : String
  headSHA : String
deriving DecidableEq, Repr

/-- workspace.go `WorkspaceFlags`. -/
structure WorkspaceFlags where
  pinned : Bool
  ephemeral : Bool
  locked : Bool
  broken : Bool
deriving DecidableEq, Repr

/-- workspace.go `EphemeralInfo`; `ExpiresAt` as epoch seconds. -/
structure EphemeralInfo where
  ttlSeconds : Int
  expiresAt : Int
deriving DecidableEq, Repr

/-- workspace.go `ActivityInfo`; optional epoch-second timestamps. -/
structure ActivityInfo where
  lastOpenedAt : Option Int
  lastGitActivityAt : Option Int
deriving DecidableEq, Repr

/-- workspace.go `StatusInfo`. -/
structure StatusInfo where
  dirty : Bool
  conflicts : Bool
  ahead : Int
  behind : Int
  branch : String
  detached : Bool
deriving DecidableEq, Repr

/-- workspace.go `Workspace`. -/
structure Workspace where
  id : String
  name : String
  path : String
  isPrimary : Bool
  target : Target
  flags : WorkspaceFlags
  ephemeral : Option EphemeralInfo
  activity : ActivityInfo
  status : StatusInfo
deriving DecidableEq, Repr

/-- git/repo.go `Worktree`. -/
structure Worktree where
  path : String
  head : String
  branch : String
  locked : Bool
  prunable : Bool
deriving DecidableEq, Repr

/-- git/repo.go `Status`. -/
structure GitStatus where
  dirty : Bool
  conflicts : Bool
  branch : String
  detached : Bool
  ahead : Int
  behind : Int
deriving DecidableEq, Repr

/-- The zero value of git.Status, used by List when GetStatus fails. -/
def zeroGitStatus : GitStatus := ⟨false, false, "", false, 0, 0⟩

/-- metadata store `ActivityMetadata`. -/
structure ActivityMetadata where
  lastOpenedAt : Option Int
  lastGitActivityAt : Option Int
deriving DecidableEq, Repr

/-- metadata store `EphemeralMetadata`. -/
structure EphemeralMetadata where
  ttlSeconds : Int
  expiresAt : Int
deriving DecidableEq, Repr

/-- metadata store `WorkspaceMetadata`. `Flags` is a Go `map[string]bool`,
modelled as an association list with unique-key lookup. -/
structure WorkspaceMetadata where
  id : String
  name : String
  path : String
  flags : List (String × Bool)
  ephemeral : Option EphemeralMetadata
  activity : ActivityMetadata
  createdAt : Int
  updatedAt : Int
deriving DecidableEq, Repr

/-- Lookup of `wsMeta.Flags[key]` with its `ok` bit folded into `Option`. -/
def flagLookup (flags : List (String × Bool)) (key : String) : Option Bool :=
  (flags.find? (fun kv => kv.1 == key)).map (fun kv => kv.2)

/-- Selector types (core selector file `SelectorType`). -/
inductive SelectorType
  | bare
  | id
  | name
  | path
  | branch
deriving DecidableEq, Repr

/-- core selector file `Selector`. -/
structure Selector where
  type : SelectorType
  value : String
deriving DecidableEq, Repr

/-- Index of the first occurrence of a character, mirroring Go
`strings.Index(s, ":")` (byte index; all selector keywords are ASCII). -/
def charIndex : List Char → Char → Option Nat
  | [], _ => none
  | c :: cs, t => if c = t then some 0 else (charIndex cs t).map (· + 1)

/-- The bare-selector tail of `ParseSelector`: a value that contains `/`,
is exactly `.`, or starts with `.` is path-normalized but stays Bare. -/
def bareSelector (norm : String → String) (s : String) : Selector :=
  if s.data.contains '/' || s == "." || s.data.head? == some '.' then
    ⟨SelectorType.bare, norm s⟩
  else
    ⟨SelectorType.bare, s⟩

/-- core selector file `ParseSelector`. `norm` stands for `normalizePath`
(Clean + Abs, filesystem-dependent, hence a parameter). -/
def parseSelector (norm : String → String) (s : String) : Selector :=
  match charIndex s.data ':' with
  | some idx =>
    if 0 < idx then
      let pre := (s.data.take idx).asString
      let value := (s.data.drop (idx + 1)).asString
      if pre == "id" then ⟨SelectorType.id, value⟩
      else if pre == "name" then ⟨SelectorType.name, value⟩
      else if pre == "path" then ⟨SelectorType.path, norm value⟩
      else if pre == "branch" then ⟨SelectorType.branch, value⟩
      else bareSelector norm s
    else bareSelector norm s
  | none => bareSelector norm s

/-- engine.go `selectorToString`. -/
def selectorToString (s : Selector) : String :=
  match s.type with
  | SelectorType.id => "id:" ++ s.value
  | SelectorType.name => "name:" ++ s.value
  | SelectorType.path => "path:" ++ s.value
  | SelectorType.branch => "branch:" ++ s.value
  | SelectorType.bare => s.value

/-- Pure model of Go `filepath.Base`: last path element after stripping
trailing slashes; "." for the empty path, "/" when only slashes remain. -/
def filepathBase (p : String) : String :=
  if p == "" then "."
  else
    match (p.splitOn "/").reverse.find? (fun s => s ≠ "") with
    | some s => s
    | none => "/"

/-- The `pathToMeta` map of engine.go List (lines 186-190): a Go map built
by inserting every metadata row keyed by its normalized path; a later row
with the same normalized path overwrites an earlier one. -/
def pathToMeta (norm : String → String) (rows : List WorkspaceMetadata) :
    String → Option WorkspaceMetadata :=
  rows.foldl (fun m ws => fun k => if k = norm ws.path then some ws else m k)
    (fun _ => none)

/-- The `seenPaths` set of engine.go List: in the source it is populated
while looping over the worktrees and only read afterwards, so it equals the
set of normalized live-worktree paths. -/
def seenPaths (norm : String → String) (worktrees : List Worktree) (p : String) : Bool :=
  worktrees.any (fun wt => norm wt.path == p)

/-- Body of the per-worktree loop of engine.go List (lines 196-288): build
the merged Workspace for one live worktree, from git truth plus the
metadata row found at its normalized path (if any). -/
def buildLiveWorkspace (status : GitStatus) (isPrimary : Bool)
    (metaAt : Option WorkspaceMetadata) (wt : Worktree) : Workspace :=
  let target : Target :=
    if wt.branch ≠ "" then
      ⟨"branch", "refs/heads/" ++ wt.branch, wt.branch, "", wt.head⟩
    else
      ⟨"commit", wt.head, (wt.head.data.take 7).asString, "", wt.head⟩
  let ws : Workspace :=
    ⟨"", "", wt.path, isPrimary, target,
      ⟨false, false, wt.locked, false⟩, none, ⟨none, none⟩,
      ⟨status.dirty, status.conflicts, status.ahead, status.behind,
        status.branch, status.detached⟩⟩
  match metaAt with
  | some wsMeta =>
    let ws := { ws with id := wsMeta.id, name := wsMeta.name }
    let ws :=
      match flagLookup wsMeta.flags "pinned" with
      | some pinned => { ws with flags := { ws.flags with pinned := pinned } }
      | none => ws
    let ws :=
      match flagLookup wsMeta.flags "ephemeral" with
      | some ephemeral => { ws with flags := { ws.flags with ephemeral := ephemeral } }
      | none => ws
    let ws :=
      match flagLookup wsMeta.flags "locked" with
      | some locked => { ws with flags := { ws.flags with locked := locked } }
      | none => ws
    let ws :=
      match wsMeta.ephemeral with
      | some e => { ws with ephemeral := some ⟨e.ttlSeconds, e.expiresAt⟩ }
      | none => ws
    { ws with activity := ⟨wsMeta.activity.lastOpenedAt, wsMeta.activity.lastGitActivityAt⟩ }
  | none =>
    { ws with id := "<no-metadata>", name := filepathBase wt.path }

/-- The per-worktree loop of engine.go List; `i` is the loop index, and
`isPrimary = (i == 0)`. `getStatus` models `repo.GetStatus`, whose failure
(`none`) falls back to the zero git.Status. -/
def mergeWorktrees (norm : String → String) (getStatus : String → Option GitStatus)
    (p2m : String → Option WorkspaceMetadata) : List Worktree → Nat → List Workspace
  | [], _ => []
  | wt :: rest, i =>
    let status := (getStatus wt.path).getD zeroGitStatus
    buildLiveWorkspace status (decide (i = 0)) (p2m (norm wt.path)) wt ::
      mergeWorktrees norm getStatus p2m rest (i + 1)

/-- The orphaned-metadata branch of engine.go List (lines 296-323): a
synthetic Broken workspace. Note the source copies only the `pinned` and
`ephemeral` flags here (not `locked`), plus ephemeral info and activity. -/
def buildBrokenWorkspace (wsMeta : WorkspaceMetadata) : Workspace :=
  let ws : Workspace :=
    ⟨wsMeta.id, wsMeta.name, wsMeta.path, false, ⟨"", "", "", "", ""⟩,
      ⟨false, false, false, true⟩, none, ⟨none, none⟩,
      ⟨false, false, 0, 0, "", false⟩⟩
  let ws :=
    match flagLookup wsMeta.flags "pinned" with
    | some pinned => { ws with flags := { ws.flags with pinned := pinned } }
    | none => ws
  let ws :=
    match flagLookup wsMeta.flags "ephemeral" with
    | some ephemeral => { ws with flags := { ws.flags with ephemeral := ephemeral } }
    | none => ws
  let ws :=
    match wsMeta.ephemeral with
    | some e => { ws with ephemeral := some ⟨e.ttlSeconds, e.expiresAt⟩ }
    | none => ws
  { ws with activity := ⟨wsMeta.activity.lastOpenedAt, wsMeta.activity.lastGitActivityAt⟩ }

/-- The orphaned-metadata loop of engine.go List (lines 292-327): every
metadata row whose normalized path was never seen among live worktrees
yields one synthetic Broken workspace. -/
def orphanLoop (norm : String → String) (worktrees : List Worktree) :
    List WorkspaceMetadata → List Workspace
  | [] => []
  | wsMeta :: rest =>
    if seenPaths norm worktrees (norm wsMeta.path) then orphanLoop norm worktrees rest
    else buildBrokenWorkspace wsMeta :: orphanLoop norm worktrees rest

/-- engine.go `List` (lines 172-329), with the live worktree listing and
the loaded metadata rows as inputs (the git and store calls themselves are
this function's inputs, not part of the merge algorithm). -/
def listWorkspaces (norm : String → String) (getStatus : String → Option GitStatus)
    (worktrees : List Worktree) (rows : List WorkspaceMetadata) : List Workspace :=
  mergeWorktrees norm getStatus (pathToMeta norm rows) worktrees 0 ++
    orphanLoop norm worktrees rows

/-- engine.go `Resolve` (lines 355-444): the match switch over a resolved
selector, applied to the merged workspace list. -/
def resolveMatch (norm : String → String) (all : List Workspace) (sel : Selector) :
    List Workspace :=
  match sel.type with
  | SelectorType.id => all.filter (fun ws => ws.id == sel.value)
  | SelectorType.name => all.filter (fun ws => ws.name == sel.value)
  | SelectorType.path =>
    let nv := norm sel.value
    all.filter (fun ws => norm ws.path == nv)
  | SelectorType.branch =>
    all.filter (fun ws =>
      ws.target.short == sel.value || ws.target.ref == "refs/heads/" ++ sel.value)
  | SelectorType.bare =>
    let m1 := all.filter (fun ws => ws.id == sel.value)
    if 0 < m1.length then m1 else
    let m2 := all.filter (fun ws => ws.name == sel.value)
    if 0 < m2.length then m2 else
    let nv := norm sel.value
    let m3 := all.filter (fun ws => norm ws.path == nv)
    if 0 < m3.length then m3 else
    all.filter (fun ws =>
      ws.target.short == sel.value || ws.target.ref == "refs/heads/" ++ sel.value)

/-- engine.go `Get` (lines 333-352): wraps Resolve (which itself re-parses
`selectorToString selector`) with the zero/one/many match policy. `all` is
the merged workspace list the engine's List would produce. -/
def engineGet (norm : String → String) (all : List Workspace) (sel : Selector) :
    Except CoreError Workspace :=
  let workspaces := resolveMatch norm all (parseSelector norm (selectorToString sel))
  if h0 : workspaces.length = 0 then
    Except.error ((NewError ErrorCode.notFound "workspace not found").WithDetail
      "selector" (Detail.str (selectorToString sel)))
  else if h1 : 1 < workspaces.length then
    Except.error (((((NewError ErrorCode.ambiguous "selector matches multiple workspaces").WithDetail
      "selector" (Detail.str (selectorToString sel))).WithDetail
      "count" (Detail.num workspaces.length)).WithHint
      "Use a more specific selector (id:, name:, or path:)" ""))
  else
    Except.ok (workspaces.get ⟨0, by omega⟩)

/-- engine.go `RemoveOptions`. -/
structure RemoveOptions where
  deleteBranch : Bool
  keepBranch : Bool
  onDirty : String
  patchDir : String
  wipMessage : String
  noPrompt : Bool
deriving DecidableEq, Repr

/-- Destructive side effects attempted by Remove, in order. -/
inductive RemoveEffect
  | gitRemove (path : String) (force : Bool)
  | metaDelete (id : String)
deriving DecidableEq, Repr

/-- engine.go `Remove` (lines 591-650). `lockAcq` models the advisory-lock
acquisition result, `gitRemoveResult`/`metaDeleteResult` model the outcomes
of `repo.RemoveWorktree` and `store.Delete`. The first component of the
result records which destructive effects were attempted, in order. -/
def engineRemove (norm : String → String) (lockAcq : Except CoreError Unit)
    (all : List Workspace)
    (gitRemoveResult : String → Bool → Except CoreError Unit)
    (metaDeleteResult : String → Except CoreError Unit)
    (sel : Selector) (opts : RemoveOptions) :
    List RemoveEffect × Except CoreError Unit :=
  match lockAcq with
  | Except.error e => ([], Except.error e)
  | Except.ok _ =>
    match engineGet norm all sel with
    | Except.error e => ([], Except.error e)
    | Except.ok ws =>
      if ws.flags.pinned then
        ([], Except.error ((((NewError ErrorCode.locked "workspace is pinned").WithDetail
          "id" (Detail.str ws.id)).WithDetail
          "name" (Detail.str ws.name)).WithHint
          "Unpin the workspace first" ("yagwt unpin " ++ ws.name)))
      else if ws.flags.locked then
        ([], Except.error ((((NewError ErrorCode.locked "workspace is locked").WithDetail
          "id" (Detail.str ws.id)).WithDetail
          "name" (Detail.str ws.name)).WithHint
          "Unlock the workspace first" ("yagwt unlock " ++ ws.name)))
      else
        let onDirty := if opts.onDirty == "" then "fail" else opts.onDirty
        if ws.status.dirty && onDirty == "fail" then
          ([], Except.error ((((NewError ErrorCode.dirty "workspace has uncommitted changes").WithDetail
            "id" (Detail.str ws.id)).WithDetail
            "name" (Detail.str ws.name)).WithHint
            "Commit or stash changes, or use --on-dirty=force"
            ("git -C " ++ ws.path ++ " status")))
        else
          let force := onDirty == "force"
          match gitRemoveResult ws.path force with
          | Except.error e => ([RemoveEffect.gitRemove ws.path force], Except.error e)
          | Except.ok _ =>
            match metaDeleteResult ws.id with
            | Except.error e =>
              ([RemoveEffect.gitRemove ws.path force, RemoveEffect.metaDelete ws.id],
                Except.error e)
            | Except.ok _ =>
              ([RemoveEffect.gitRemove ws.path force, RemoveEffect.metaDelete ws.id],
                Except.ok ())

/-- Result of one `unix.Flock(LOCK_EX | LOCK_NB)` attempt in lock Acquire. -/
inductive FlockResult
  | ok
  | wouldBlock
  | err (msg : String)
deriving DecidableEq, Repr

/-- The backoff update at the bottom of the Acquire retry loop:
`if pollInterval < 100*time.Millisecond then pollInterval *= 2`
(intervals in milliseconds). -/
def nextPollInterval (i : Nat) : Nat := if i < 100 then i * 2 else i

/-- The trace of an Acquire call: the sleep durations performed (ms, in
order) and the final result. -/
structure AcquireTrace where
  sleeps : List Nat
  result : Except CoreError Unit
deriving Repr

/-- The "lock acquisition timed out" error built by Acquire (lock file,
lines 81-87). The source stores `timeout.String()`; modelled as the
millisecond count. -/
def lockTimedOutError (path : String) (timeout : Nat) : CoreError :=
  (((NewError ErrorCode.locked "lock acquisition timed out").WithDetail
    "path" (Detail.str path)).WithDetail
    "timeout" (Detail.num timeout)).WithHint
    "Another process may be holding the lock" ""

/-- The "failed to acquire lock" error for a non-EWOULDBLOCK flock failure. -/
def flockFailedError (path : String) : CoreError :=
  (NewError ErrorCode.config "failed to acquire lock").WithDetail
    "path" (Detail.str path)

/-- The "failed to open lock file" error for an open failure. -/
def openLockFailedError (path : String) : CoreError :=
  (NewError ErrorCode.config "failed to open lock file").WithDetail
    "path" (Detail.str path)

/-- The Acquire retry loop (lock file, lines 60-96). `flock` gives the
outcome of the k-th flock attempt; `elapsed` is the total time slept so
far (the loop's `time.Now().After(deadline)` check), `interval` the current
`pollInterval`. Time spent in the flock call itself is not modelled. The
invariant `10 ≤ interval` reflects `pollInterval := 10ms` and its doubling. -/
def acquireLoop (flock : Nat → FlockResult) (path : String) (timeout : Nat) :
    (attempt elapsed interval : Nat) → 10 ≤ interval → AcquireTrace
  | attempt, elapsed, interval, hi =>
    match flock attempt with
    | FlockResult.ok => ⟨[], Except.ok ()⟩
    | FlockResult.err _ => ⟨[], Except.error (flockFailedError path)⟩
    | FlockResult.wouldBlock =>
      if h : timeout < elapsed then
        ⟨[], Except.error (lockTimedOutError path timeout)⟩
      else
        let rest := acquireLoop flock path timeout (attempt + 1) (elapsed + interval)
          (nextPollInterval interval)
          (by unfold nextPollInterval; split <;> omega)
        ⟨interval :: rest.sleeps, rest.result⟩
termination_by _ elapsed interval _ => timeout + 1 - elapsed
decreasing_by simp_wf; omega

/-- lock Acquire (lock file, lines 52-97): open (modelled by `openOk`),
then the retry loop starting at attempt 0, elapsed 0, interval 10ms. -/
def acquire (flock : Nat → FlockResult) (openOk : Bool) (path : String)
    (timeout : Nat) : AcquireTrace :=
  if openOk then acquireLoop flock path timeout 0 0 10 (by omega)
  else ⟨[], Except.error (openLockFailedError path)⟩

/-- A flock schedule on which the lock is held by another process forever. -/
def alwaysBlocked : Nat → FlockResult := fun _ => FlockResult.wouldBlock

/-- metadata store `Index`. Go maps can be nil after JSON decoding, hence
`Option`; the association lists model map contents. -/
structure MetaIndex where
  byPath : Option (List (String × String))
  byName : Option (List (String × String))
  byBranch : Option (List (String × List String))
deriving DecidableEq, Repr

/-- metadata store `Metadata` (the persisted top-level document). -/
structure MetadataDoc where
  schemaVersion : Int
  workspaces : Option (List (String × WorkspaceMetadata))
  index : MetaIndex
deriving DecidableEq, Repr

/-- The state of the metadata file as seen by Load. -/
inductive FileState
  | missing
  | unreadable (msg : String)
  | content (data : String)
deriving DecidableEq, Repr

/-- metadata store `Load` (lines 89-140). `decode` models
`json.Unmarshal` into `Metadata` (`none` = malformed JSON). -/
def loadStore (decode : String → Option MetadataDoc) (path : String)
    (fs : FileState) : Except CoreError MetadataDoc :=
  match fs with
  | FileState.missing =>
    Except.ok ⟨1, some [], ⟨some [], some [], some []⟩⟩
  | FileState.unreadable _ =>
    Except.error ((NewError ErrorCode.config "failed to read metadata file").WithDetail
      "path" (Detail.str path))
  | FileState.content data =>
    match decode data with
    | none =>
      Except.error (((NewError ErrorCode.config "corrupted metadata file").WithDetail
        "path" (Detail.str path)).WithHint
        "Try removing the metadata file to start fresh" ("rm " ++ path))
    | some metadata =>
      if metadata.schemaVersion ≠ 1 then
        Except.error (((NewError ErrorCode.config "unsupported metadata schema version").WithDetail
          "version" (Detail.num metadata.schemaVersion)).WithDetail
          "expected" (Detail.num 1))
      else
        Except.ok ⟨metadata.schemaVersion,
          some (metadata.workspaces.getD []),
          ⟨some (metadata.index.byPath.getD []),
            some (metadata.index.byName.getD []),
            some (metadata.index.byBranch.getD [])⟩⟩

/-- cleanup package `RemovalReason`. -/
structure RemovalReason where
  code : String
  message : String
deriving DecidableEq, Repr

/-- cleanup package `RemovalAction`. -/
structure RemovalAction where
  workspace : Workspace
  reason : RemovalReason
deriving DecidableEq, Repr

/-- cleanup package `Warning`. -/
structure PlanWarning where
  code : String
  message : String
deriving DecidableEq, Repr

/-- cleanup package `CleanupPlan`. -/
structure CleanupPlanRec where
  actions : List RemovalAction
  warnings : List PlanWarning
deriving DecidableEq, Repr

/-- One second/hour/day in the Int-seconds model of time.Duration. -/
def secondsPerHour : Int := 3600

def secondsPerDay : Int := 24 * secondsPerHour

/-- cleanup policies `DefaultPolicy.Evaluate`: skip pinned/locked; remove
expired ephemeral; else remove if idle more than 30 days and not dirty. -/
def defaultPolicyEvaluate (now : Int) (ws : Workspace) : RemovalReason × Bool :=
  if ws.flags.pinned then (⟨"", ""⟩, false)
  else if ws.flags.locked then (⟨"", ""⟩, false)
  else
    match ws.ephemeral with
    | some e =>
      if ws.flags.ephemeral && decide (e.expiresAt < now) then
        (⟨"expired_ephemeral", "Ephemeral workspace has expired"⟩, true)
      else defaultPolicyIdleCheck now ws
    | none => defaultPolicyIdleCheck now ws
where
  /-- The idle-30d tail of DefaultPolicy.Evaluate. -/
  defaultPolicyIdleCheck (now : Int) (ws : Workspace) : RemovalReason × Bool :=
    match ws.activity.lastGitActivityAt with
    | some t =>
      if decide (now - t > 30 * secondsPerDay) && !ws.status.dirty then
        (⟨"idle_30d", "Workspace idle for more than 30 days"⟩, true)
      else (⟨"", ""⟩, false)
    | none => (⟨"", ""⟩, false)

/-- cleanup policies `ConservativePolicy.Evaluate`: skip pinned/locked;
remove only expired ephemeral workspaces. -/
def conservativePolicyEvaluate (now : Int) (ws : Workspace) : RemovalReason × Bool :=
  if ws.flags.pinned then (⟨"", ""⟩, false)
  else if ws.flags.locked then (⟨"", ""⟩, false)
  else
    match ws.ephemeral with
    | some e =>
      if ws.flags.ephemeral && decide (e.expiresAt < now) then
        (⟨"expired_ephemeral", "Ephemeral workspace has expired"⟩, true)
      else (⟨"", ""⟩, false)
    | none => (⟨"", ""⟩, false)

/-- cleanup policies `AggressivePolicy.Evaluate`: skip pinned/locked;
remove expired ephemeral; else remove if idle more than 7 days, regardless
of dirty state. -/
def aggressivePolicyEvaluate (now : Int) (ws : Workspace) : RemovalReason × Bool :=
  if ws.flags.pinned then (⟨"", ""⟩, false)
  else if ws.flags.locked then (⟨"", ""⟩, false)
  else
    match ws.ephemeral with
    | some e =>
      if ws.flags.ephemeral && decide (e.expiresAt < now) then
        (⟨"expired_ephemeral", "Ephemeral workspace has expired"⟩, true)
      else aggressivePolicyIdleCheck now ws
    | none => aggressivePolicyIdleCheck now ws
where
  /-- The idle-7d tail of AggressivePolicy.Evaluate. -/
  aggressivePolicyIdleCheck (now : Int) (ws : Workspace) : RemovalReason × Bool :=
    match ws.activity.lastGitActivityAt with
    | some t =>
      if decide (now - t > 7 * secondsPerDay) then
        (⟨"idle_7d", "Workspace idle for more than 7 days"⟩, true)
      else (⟨"", ""⟩, false)
    | none => (⟨"", ""⟩, false)

/-- cleanup package `GetPolicy`: name to policy, unknown names fall back
to the default policy. -/
def getPolicy (now : Int) (nm : String) : Workspace → RemovalReason × Bool :=
  if nm == "conservative" then conservativePolicyEvaluate now
  else if nm == "aggressive" then aggressivePolicyEvaluate now
  else defaultPolicyEvaluate now

/-- The advisory warnings GeneratePlan attaches for one removed workspace
(dirty / conflicts / unpushed-commits), in source order. -/
def actionWarnings (ws : Workspace) : List PlanWarning :=
  (if ws.status.dirty then
    [⟨"dirty_workspace", "Workspace '" ++ ws.name ++ "' has uncommitted changes"⟩]
  else []) ++
  (if ws.status.conflicts then
    [⟨"conflicts", "Workspace '" ++ ws.name ++ "' has merge conflicts"⟩]
  else []) ++
  (if ws.status.ahead > 0 then
    [⟨"unpushed_commits", "Workspace '" ++ ws.name ++ "' has unpushed commits"⟩]
  else [])

/-- The evaluation loop of cleanup `GeneratePlan` (lines 32-66), before
sorting: collects removal actions and warnings in workspace input order. -/
def evalLoop (policy : Workspace → RemovalReason × Bool) :
    List Workspace → List RemovalAction × List PlanWarning
  | [] => ([], [])
  | ws :: rest =>
    let r := policy ws
    let acc := evalLoop policy rest
    if r.2 then (⟨ws, r.1⟩ :: acc.1, actionWarnings ws ++ acc.2)
    else acc

/-- cleanup `sortActions` (lines 75-103): bucket by reason code, then
concatenate expired, idle30d, idle7d, other, preserving order inside each
bucket (the Go loop appends to the four slices in input order). -/
def sortActions (actions : List RemovalAction) : List RemovalAction :=
  let expired := actions.filter (fun a => a.reason.code == "expired_ephemeral")
  let idle30d := actions.filter (fun a => a.reason.code == "idle_30d")
  let idle7d := actions.filter (fun a => a.reason.code == "idle_7d")
  let other := actions.filter (fun a =>
    !(a.reason.code == "expired_ephemeral") && !(a.reason.code == "idle_30d") &&
      !(a.reason.code == "idle_7d"))
  expired ++ idle30d ++ idle7d ++ other

/-- cleanup `GeneratePlan` (lines 26-72). -/
def generatePlan (workspaces : List Workspace)
    (policy : Workspace → RemovalReason × Bool) : CleanupPlanRec :=
  let acc := evalLoop policy workspaces
  ⟨sortActions acc.1, acc.2⟩

/-- The safety rank of a reason code, from the sort order of sortActions. -/
def reasonRank (code : String) : Nat :=
  if code == "expired_ephemeral" then 0
  else if code == "idle_30d" then 1
  else if code == "idle_7d" then 2
  else 3

/-- Go `strings.HasPrefix` on the underlying character lists. -/
def goHasPre (s pre : String) : Bool := pre.data.isPrefixOf s.data

/-- Go `strings.TrimPrefix`. -/
def goTrimPre (s pre : String) : String :=
  if goHasPre s pre then (s.data.drop pre.data.length).asString else s

/-- Model of Go `strconv.Atoi` restricted to the strings parseDuration
passes it (runs of decimal digits): left-to-right decimal accumulation,
failing on the empty string or any non-digit. -/
def atoiDigits (s : String) : Option Nat :=
  if s.data.all (fun c => c.isDigit) && !s.data.isEmpty then
    some (s.data.foldl (fun acc c => acc * 10 + (c.toNat - '0'.toNat)) 0)
  else none

/-- filter.go `parseDuration` (lines 306-345): digits then a unit letter
d/h/m/s; result in seconds. The Go loop takes the leading digit run as the
number and everything from the first non-digit on as the unit. -/
def parseDuration (s : String) : Option Int :=
  if s == "" then none
  else
    let numStr := (s.data.takeWhile (fun c => c.isDigit)).asString
    let unit := (s.data.dropWhile (fun c => c.isDigit)).asString
    if numStr == "" then none
    else
      match atoiDigits numStr with
      | none => none
      | some num =>
        if unit == "d" then some ((num : Int) * 24 * secondsPerHour)
        else if unit == "h" then some ((num : Int) * secondsPerHour)
        else if unit == "m" then some ((num : Int) * 60)
        else if unit == "s" then some ((num : Int))
        else none

/-- filter.go `ActivityFilter.Match` (lines 109-146). -/
def activityFilterMatch (now : Int) (condition : String) (ws : Workspace) : Bool :=
  if goHasPre condition "idle>" then
    match parseDuration (goTrimPre condition "idle>") with
    | none => false
    | some duration =>
      match ws.activity.lastGitActivityAt with
      | none => true
      | some t => decide (now - t > duration)
  else if goHasPre condition "active<" then
    match parseDuration (goTrimPre condition "active<") with
    | none => false
    | some duration =>
      match ws.activity.lastGitActivityAt with
      | none => false
      | some t => decide (now - t < duration)
  else false

/-! Spec-side definitions (phrased from the specification's words, to be
compared against the source-translated functions above), followed by
concrete fixtures used to instantiate theorems with hypotheses. -/

/-- Spec-side: "the metadata row whose normalized path equals the
worktree's normalized path" — with Go-map semantics, the last such row in
insertion order. -/
def metaRowFor (norm : String → String) (rows : List WorkspaceMetadata)
    (key : String) : Option WorkspaceMetadata :=
  rows.reverse.find? (fun m => norm m.path == key)

/-- Spec-side: "the match set of the first stage that is non-empty". -/
def firstNonEmptyList : List (List Workspace) → List Workspace
  | [] => []
  | l :: rest => if l.isEmpty then firstNonEmptyList rest else l

/-- Spec-side: the four Bare-resolution stages in priority order
(ID-exact, Name-exact, Path-exact normalized, Branch-exact). -/
def bareStages (norm : String → String) (all : List Workspace) (v : String) :
    List (List Workspace) :=
  [all.filter (fun ws => ws.id == v),
   all.filter (fun ws => ws.name == v),
   all.filter (fun ws => norm ws.path == norm v),
   all.filter (fun ws => ws.target.short == v || ws.target.ref == "refs/heads/" ++ v)]

/-- Fixture: a branch target. -/
def sampleTarget : Target := ⟨"branch", "refs/heads/main", "main", "", "abc1234"⟩

/-- Fixture: a clean status. -/
def sampleStatus : StatusInfo := ⟨false, false, 0, 0, "main", false⟩

/-- Fixture: a pinned workspace. -/
def wsPinned : Workspace :=
  ⟨"w1", "alpha", "/tmp/a", false, sampleTarget,
    ⟨true, false, false, false⟩, none, ⟨none, none⟩, sampleStatus⟩

/-- Fixture: a workspace with no recorded git activity and no ephemeral
expiry. -/
def wsNoActivity : Workspace :=
  ⟨"w2", "beta", "/tmp/b", false, sampleTarget,
    ⟨false, false, false, false⟩, none, ⟨none, none⟩, sampleStatus⟩

/-- Fixture: a git-removal backend that always succeeds. -/
def gitOkFun : String → Bool → Except CoreError Unit := fun _ _ => Except.ok ()

/-- Fixture: a metadata-deletion backend that always succeeds. -/
def metaOkFun : String → Except CoreError Unit := fun _ => Except.ok ()

/-- Fixture: identity path normalization (paths already absolute/clean). -/
def idNorm : String → String := fun s => s

/-- Fixture: GetStatus fails for every path (zero status fallback). -/
def noStatus : String → Option GitStatus := fun _ => none

/-- Fixture: one live worktree on branch main. -/
def wtMain : Worktree := ⟨"/repo", "abc1234def", "main", false, false⟩

/-- Fixture: a second live worktree, detached. -/
def wtFeature : Worktree := ⟨"/repo-feat", "fff1234aaa", "", false, false⟩

/-- Fixture: a metadata row whose worktree is gone. -/
def rowGone : WorkspaceMetadata :=
  ⟨"m1", "gone", "/gone", [("pinned", false), ("ephemeral", false), ("locked", false)],
    none, ⟨none, none⟩, 0, 0⟩

/-- Fixture: a JSON decoder that rejects every document (malformed file). -/
def decodeNone : String → Option MetadataDoc := fun _ => none

/-- Fixture: a JSON decoder that yields a schemaVersion-2 document. -/
def decodeV2 : String → Option MetadataDoc :=
  fun _ => some ⟨2, none, ⟨none, none, none⟩⟩

/-- Fixture: remove options requesting the force on-dirty strategy. -/
def sampleRemoveOpts : RemoveOptions := ⟨false, false, "force", "", "", false⟩

/-- Fixture: the typed selector `id:w1`. -/
def selW1 : Selector := ⟨SelectorType.id, "w1"⟩

/-- Fixture: an ephemeral workspace whose expiry (epoch second 50) has
passed, with no recorded git activity. -/
def wsExpired : Workspace :=
  ⟨"w3", "gamma", "/tmp/c", false, sampleTarget,
    ⟨false, true, false, false⟩, some ⟨3600, 50⟩, ⟨none, none⟩, sampleStatus⟩

/-! ## Theorems -/

/-- C4: for every workspace list and every Bare selector value, Resolve
tries exact ID match, then exact Name match, then normalized-path match,
then branch match (short or refs/heads form), and returns the match set of
the first non-empty stage; once an earlier stage matches, later stages are
never consulted. -/
theorem resolve_bare_first_nonempty_stage (norm : String → String)
    (all : List Workspace) (v : String) :
    resolveMatch norm all ⟨SelectorType.bare, v⟩ = firstNonEmptyList (bareStages norm all v) := by
  simp only [resolveMatch, bareStages, firstNonEmptyList]
  rcases h1 : all.filter (fun ws => ws.id == v) with _ | ⟨a1, l1⟩ <;>
    rcases h2 : all.filter (fun ws => ws.name == v) with _ | ⟨a2, l2⟩ <;>
      rcases h3 : all.filter (fun ws => norm ws.path == norm v) with _ | ⟨a3, l3⟩ <;>
        rcases h4 : all.filter
            (fun ws => ws.target.short == v || ws.target.ref == "refs/heads/" ++ v)
          with _ | ⟨a4, l4⟩ <;>
          simp [h1, h2, h3, h4, firstNonEmptyList]

/-- C5: Get wraps Resolve — zero matches give a not-found error, a unique
match is returned, and more than one match gives an ambiguous error that
carries the match count as a detail and a hint to use a typed selector. -/
theorem get_wraps_resolve (norm : String → String) (all : List Workspace)
    (sel : Selector) :
    (resolveMatch norm all (parseSelector norm (selectorToString sel)) = [] →
      ∃ e, engineGet norm all sel = Except.error e ∧ e.code = ErrorCode.notFound) ∧
    (∀ ws, resolveMatch norm all (parseSelector norm (selectorToString sel)) = [ws] →
      engineGet norm all sel = Except.ok ws) ∧
    (1 < (resolveMatch norm all (parseSelector norm (selectorToString sel))).length →
      ∃ e, engineGet norm all sel = Except.error e ∧ e.code = ErrorCode.ambiguous ∧
        ("count", Detail.num
          ((resolveMatch norm all (parseSelector norm (selectorToString sel))).length))
          ∈ e.details ∧
        ∃ h, h ∈ e.hints ∧
          h.message = "Use a more specific selector (id:, name:, or path:)") := by
  refine ⟨?_, ?_, ?_⟩
  · intro hms
    refine ⟨(NewError ErrorCode.notFound "workspace not found").WithDetail
      "selector" (Detail.str (selectorToString sel)), ?_, rfl⟩
    simp [engineGet, hms]
  · intro ws hms
    simp [engineGet, hms]
  · intro hlen
    refine ⟨((((NewError ErrorCode.ambiguous "selector matches multiple workspaces").WithDetail
      "selector" (Detail.str (selectorToString sel))).WithDetail
      "count" (Detail.num
        ((resolveMatch norm all (parseSelector norm (selectorToString sel))).length))).WithHint
      "Use a more specific selector (id:, name:, or path:)" ""), ?_, rfl, ?_, ?_⟩
    · simp only [engineGet]
      rw [dif_neg (by omega), dif_pos hlen]
    · simp [NewError, CoreError.WithDetail, CoreError.WithHint]
    · exact ⟨⟨"Use a more specific selector (id:, name:, or path:)", ""⟩,
        by simp [NewError, CoreError.WithDetail, CoreError.WithHint], rfl⟩

/-- Witness for C5 at a concrete workspace list and selector. -/
theorem get_wraps_resolve_witness :
    engineGet idNorm [wsPinned] selW1 = Except.ok wsPinned :=
  (get_wraps_resolve idNorm [wsPinned] selW1).2.1 wsPinned rfl

/-- C1: for every workspace with Pinned or Locked set that the selector
resolves to, Remove returns a locked-kind error carrying the workspace's
id and name as details and an unpin/unlock hint, before any git worktree
removal or metadata deletion is attempted — for every OnDirty strategy
(including force) and regardless of dirty state. -/
theorem remove_blocked_on_pinned_or_locked (norm : String → String)
    (all : List Workspace)
    (gitRemoveResult : String → Bool → Except CoreError Unit)
    (metaDeleteResult : String → Except CoreError Unit)
    (sel : Selector) (opts : RemoveOptions) (ws : Workspace)
    (hget : engineGet norm all sel = Except.ok ws)
    (hflag : ws.flags.pinned = true ∨ ws.flags.locked = true) :
    (engineRemove norm (Except.ok ()) all gitRemoveResult metaDeleteResult sel opts).1 = [] ∧
    ∃ e, (engineRemove norm (Except.ok ()) all gitRemoveResult metaDeleteResult sel opts).2 =
        Except.error e ∧
      e.code = ErrorCode.locked ∧
      ("id", Detail.str ws.id) ∈ e.details ∧
      ("name", Detail.str ws.name) ∈ e.details ∧
      ∃ h, h ∈ e.hints ∧
        (h.message = "Unpin the workspace first" ∨
          h.message = "Unlock the workspace first") := by
  cases hp : ws.flags.pinned with
  | true =>
    refine ⟨by simp [engineRemove, hget, hp], ?_⟩
    refine ⟨(((NewError ErrorCode.locked "workspace is pinned").WithDetail
      "id" (Detail.str ws.id)).WithDetail
      "name" (Detail.str ws.name)).WithHint
      "Unpin the workspace first" ("yagwt unpin " ++ ws.name), ?_, rfl, ?_, ?_, ?_⟩
    · simp [engineRemove, hget, hp]
    · simp [NewError, CoreError.WithDetail, CoreError.WithHint]
    · simp [NewError, CoreError.WithDetail, CoreError.WithHint]
    · exact ⟨⟨"Unpin the workspace first", "yagwt unpin " ++ ws.name⟩,
        by simp [NewError, CoreError.WithDetail, CoreError.WithHint], Or.inl rfl⟩
  | false =>
    have hl : ws.flags.locked = true := by
      rcases hflag with h | h
      · rw [hp] at h; exact absurd h (by simp)
      · exact h
    refine ⟨by simp [engineRemove, hget, hp, hl], ?_⟩
    refine ⟨(((NewError ErrorCode.locked "workspace is locked").WithDetail
      "id" (Detail.str ws.id)).WithDetail
      "name" (Detail.str ws.name)).WithHint
      "Unlock the workspace first" ("yagwt unlock " ++ ws.name), ?_, rfl, ?_, ?_, ?_⟩
    · simp [engineRemove, hget, hp, hl]
    · simp [NewError, CoreError.WithDetail, CoreError.WithHint]
    · simp [NewError, CoreError.WithDetail, CoreError.WithHint]
    · exact ⟨⟨"Unlock the workspace first", "yagwt unlock " ++ ws.name⟩,
        by simp [NewError, CoreError.WithDetail, CoreError.WithHint], Or.inr rfl⟩

/-- Witness for C1: a pinned workspace, selected by id, with the force
on-dirty strategy. -/
theorem remove_blocked_witness :
    (engineRemove idNorm (Except.ok ()) [wsPinned] gitOkFun metaOkFun selW1
      sampleRemoveOpts).1 = [] ∧
    ∃ e, (engineRemove idNorm (Except.ok ()) [wsPinned] gitOkFun metaOkFun selW1
        sampleRemoveOpts).2 = Except.error e ∧
      e.code = ErrorCode.locked ∧
      ("id", Detail.str wsPinned.id) ∈ e.details ∧
      ("name", Detail.str wsPinned.name) ∈ e.details ∧
      ∃ h, h ∈ e.hints ∧
        (h.message = "Unpin the workspace first" ∨
          h.message = "Unlock the workspace first") :=
  remove_blocked_on_pinned_or_locked idNorm [wsPinned] gitOkFun metaOkFun selW1
    sampleRemoveOpts wsPinned rfl (Or.inl rfl)

/-- C8: Load returns an empty document with SchemaVersion 1 and
initialized empty workspace and index maps when the file is missing, and a
config-kind error — never a silently reset document — when the file exists
but is malformed JSON or carries a schemaVersion other than 1. -/
theorem load_missing_empty_and_hard_errors (decode : String → Option MetadataDoc)
    (path : String) :
    (loadStore decode path FileState.missing =
      Except.ok ⟨1, some [], ⟨some [], some [], some []⟩⟩) ∧
    (∀ data, decode data = none →
      ∃ e, loadStore decode path (FileState.content data) = Except.error e ∧
        e.code = ErrorCode.config) ∧
    (∀ data m, decode data = some m → m.schemaVersion ≠ 1 →
      ∃ e, loadStore decode path (FileState.content data) = Except.error e ∧
        e.code = ErrorCode.config) := by
  refine ⟨rfl, ?_, ?_⟩
  · intro data hdec
    refine ⟨((NewError ErrorCode.config "corrupted metadata file").WithDetail
      "path" (Detail.str path)).WithHint
      "Try removing the metadata file to start fresh" ("rm " ++ path), ?_, rfl⟩
    simp [loadStore, hdec]
  · intro data m hdec hver
    refine ⟨((NewError ErrorCode.config "unsupported metadata schema version").WithDetail
      "version" (Detail.num m.schemaVersion)).WithDetail
      "expected" (Detail.num 1), ?_, rfl⟩
    simp [loadStore, hdec, hver]

/-- Witness for C8 at concrete decoders: a missing file, a decoder that
rejects everything, and a decoder that yields schemaVersion 2. -/
theorem load_missing_empty_and_hard_errors_witness :
    (loadStore decodeNone "p" FileState.missing =
      Except.ok ⟨1, some [], ⟨some [], some [], some []⟩⟩) ∧
    (∃ e, loadStore decodeNone "p" (FileState.content "x") = Except.error e ∧
      e.code = ErrorCode.config) ∧
    (∃ e, loadStore decodeV2 "p" (FileState.content "x") = Except.error e ∧
      e.code = ErrorCode.config) :=
  ⟨(load_missing_empty_and_hard_errors decodeNone "p").1,
    (load_missing_empty_and_hard_errors decodeNone "p").2.1 "x" rfl,
    (load_missing_empty_and_hard_errors decodeV2 "p").2.2 "x"
      ⟨2, none, ⟨none, none, none⟩⟩ rfl (by decide)⟩

/-- A character list is a prefix of itself followed by anything. -/
theorem isPrefixOf_append_self (l m : List Char) : l.isPrefixOf (l ++ m) = true := by
  induction l with
  | nil => simp [List.isPrefixOf]
  | cons a as ih => simp [List.isPrefixOf, ih]

/-- Rebuilding a string from its character list is the identity. -/
theorem asString_data (s : String) : s.data.asString = s := by
  cases s
  rfl

/-- `strings.HasPrefix(pre ++ suf, pre)` always holds. -/
theorem goHasPre_append (pre suf : String) : goHasPre (pre ++ suf) pre = true := by
  unfold goHasPre
  rw [String.data_append]
  exact isPrefixOf_append_self pre.data suf.data

/-- `strings.TrimPrefix(pre ++ suf, pre) = suf`. -/
theorem goTrimPre_append (pre suf : String) : goTrimPre (pre ++ suf) pre = suf := by
  unfold goTrimPre
  rw [goHasPre_append]
  simp only [if_pos]
  rw [String.data_append, List.drop_left, asString_data]

/-- An `active<...` condition never carries the `idle>` prefix. -/
theorem active_not_idle_pre (s : String) : goHasPre ("active<" ++ s) "idle>" = false := by
  unfold goHasPre
  rw [String.data_append]
  rw [show "active<".data = 'a' :: 'c' :: 't' :: 'i' :: 'v' :: 'e' :: '<' :: [] from rfl]
  rw [show "idle>".data = 'i' :: 'd' :: 'l' :: 'e' :: '>' :: [] from rfl]
  simp only [List.cons_append, List.isPrefixOf]
  rw [show (('i' : Char) == 'a') = false from rfl]
  simp

/-- C9: for every workspace, an `idle>` activity filter with a valid
duration matches exactly when there is no recorded last git activity or
the elapsed time strictly exceeds the duration, and an `active<` filter
matches exactly when there is a recorded timestamp whose elapsed time is
strictly below the duration. -/
theorem activity_filter_semantics (now : Int) (ws : Workspace) (dstr : String)
    (dur : Int) (hd : parseDuration dstr = some dur) :
    (activityFilterMatch now ("idle>" ++ dstr) ws = true ↔
      (ws.activity.lastGitActivityAt = none ∨
        ∃ t, ws.activity.lastGitActivityAt = some t ∧ now - t > dur)) ∧
    (activityFilterMatch now ("active<" ++ dstr) ws = true ↔
      (∃ t, ws.activity.lastGitActivityAt = some t ∧ now - t < dur)) := by
  constructor
  · unfold activityFilterMatch
    rw [goHasPre_append, if_pos rfl, goTrimPre_append, hd]
    cases ha : ws.activity.lastGitActivityAt with
    | none => simp
    | some t => simp
  · unfold activityFilterMatch
    rw [active_not_idle_pre, goHasPre_append]
    simp only [Bool.false_eq_true, if_false, if_pos rfl]
    rw [goTrimPre_append, hd]
    cases ha : ws.activity.lastGitActivityAt with
    | none => simp
    | some t => simp

/-- Witness for C9: a valid 30-day duration and a workspace with no
recorded activity, which the idle filter matches. -/
theorem activity_filter_semantics_witness :
    activityFilterMatch 100 ("idle>" ++ "30d") wsNoActivity = true :=
  (activity_filter_semantics 100 wsNoActivity "30d" 2592000 (by decide)).1.mpr
    (Or.inl rfl)

/-- C10: none of the three built-in cleanup policies ever returns
shouldRemove = true for a workspace with no recorded git activity, unless
that workspace is ephemeral with an expiry in the past — in contrast with
the filter engine, where the same workspace counts as infinitely idle. -/
theorem builtin_policies_spare_unknown_idle (now : Int) (ws : Workspace)
    (hact : ws.activity.lastGitActivityAt = none)
    (hrem : (defaultPolicyEvaluate now ws).2 = true ∨
      (conservativePolicyEvaluate now ws).2 = true ∨
      (aggressivePolicyEvaluate now ws).2 = true) :
    (ws.flags.ephemeral = true ∧ ∃ e, ws.ephemeral = some e ∧ e.expiresAt < now) ∧
    activityFilterMatch now ("idle>" ++ "30d") ws = true := by
  constructor
  · rcases hrem with hrem | hrem | hrem
    · unfold defaultPolicyEvaluate at hrem
      by_cases hp : ws.flags.pinned
      · simp [hp] at hrem
      by_cases hl : ws.flags.locked
      · simp [hp, hl] at hrem
      simp only [hp, hl, if_false, Bool.false_eq_true, if_neg] at hrem
      cases he : ws.ephemeral with
      | none =>
        rw [he] at hrem
        unfold defaultPolicyEvaluate.defaultPolicyIdleCheck at hrem
        rw [hact] at hrem
        simp at hrem
      | some e =>
        rw [he] at hrem
        by_cases hc : (ws.flags.ephemeral && decide (e.expiresAt < now)) = true
        · rw [Bool.and_eq_true, decide_eq_true_iff] at hc
          exact ⟨hc.1, e, rfl, hc.2⟩
        · simp [hc, defaultPolicyEvaluate.defaultPolicyIdleCheck, hact] at hrem
    · unfold conservativePolicyEvaluate at hrem
      by_cases hp : ws.flags.pinned
      · simp [hp] at hrem
      by_cases hl : ws.flags.locked
      · simp [hp, hl] at hrem
      simp only [hp, hl, if_false, Bool.false_eq_true, if_neg] at hrem
      cases he : ws.ephemeral with
      | none =>
        rw [he] at hrem
        simp at hrem
      | some e =>
        rw [he] at hrem
        by_cases hc : (ws.flags.ephemeral && decide (e.expiresAt < now)) = true
        · rw [Bool.and_eq_true, decide_eq_true_iff] at hc
          exact ⟨hc.1, e, rfl, hc.2⟩
        · simp [hc] at hrem
    · unfold aggressivePolicyEvaluate at hrem
      by_cases hp : ws.flags.pinned
      · simp [hp] at hrem
      by_cases hl : ws.flags.locked
      · simp [hp, hl] at hrem
      simp only [hp, hl, if_false, Bool.false_eq_true, if_neg] at hrem
      cases he : ws.ephemeral with
      | none =>
        rw [he] at hrem
        unfold aggressivePolicyEvaluate.aggressivePolicyIdleCheck at hrem
        rw [hact] at hrem
        simp at hrem
      | some e =>
        rw [he] at hrem
        by_cases hc : (ws.flags.ephemeral && decide (e.expiresAt < now)) = true
        · rw [Bool.and_eq_true, decide_eq_true_iff] at hc
          exact ⟨hc.1, e, rfl, hc.2⟩
        · simp [hc, aggressivePolicyEvaluate.aggressivePolicyIdleCheck, hact] at hrem
  · unfold activityFilterMatch
    rw [goHasPre_append, if_pos rfl, goTrimPre_append]
    rw [show parseDuration "30d" = some 2592000 from by decide]
    rw [hact]

/-- Witness for C10: an expired ephemeral workspace with no recorded git
activity, which the default policy does remove. -/
theorem builtin_policies_spare_unknown_idle_witness :
    (wsExpired.flags.ephemeral = true ∧
      ∃ e, wsExpired.ephemeral = some e ∧ e.expiresAt < 100) ∧
    activityFilterMatch 100 ("idle>" ++ "30d") wsExpired = true :=
  builtin_policies_spare_unknown_idle 100 wsExpired rfl (Or.inl (by decide))

/-- The safety rank is at most 3. -/
theorem reasonRank_le_three (c : String) : reasonRank c ≤ 3 := by
  unfold reasonRank
  split_ifs <;> omega

/-- Rank 0 characterizes the expired_ephemeral code. -/
theorem rank_beq_zero (c : String) :
    (reasonRank c == 0) = (c == "expired_ephemeral") := by
  by_cases h1 : c = "expired_ephemeral"
  · subst h1; decide
  by_cases h2 : c = "idle_30d"
  · subst h2; decide
  by_cases h3 : c = "idle_7d"
  · subst h3; decide
  · simp [reasonRank, h1, h2, h3]

/-- Rank 1 characterizes the idle_30d code. -/
theorem rank_beq_one (c : String) : (reasonRank c == 1) = (c == "idle_30d") := by
  by_cases h1 : c = "expired_ephemeral"
  · subst h1; decide
  by_cases h2 : c = "idle_30d"
  · subst h2; decide
  by_cases h3 : c = "idle_7d"
  · subst h3; decide
  · simp [reasonRank, h1, h2, h3]

/-- Rank 2 characterizes the idle_7d code. -/
theorem rank_beq_two (c : String) : (reasonRank c == 2) = (c == "idle_7d") := by
  by_cases h1 : c = "expired_ephemeral"
  · subst h1; decide
  by_cases h2 : c = "idle_30d"
  · subst h2; decide
  by_cases h3 : c = "idle_7d"
  · subst h3; decide
  · simp [reasonRank, h1, h2, h3]

/-- Rank 3 characterizes every other code. -/
theorem rank_beq_three (c : String) :
    (reasonRank c == 3) =
      (!(c == "expired_ephemeral") && !(c == "idle_30d") && !(c == "idle_7d")) := by
  by_cases h1 : c = "expired_ephemeral"
  · subst h1; decide
  by_cases h2 : c = "idle_30d"
  · subst h2; decide
  by_cases h3 : c = "idle_7d"
  · subst h3; decide
  · simp [reasonRank, h1, h2, h3]

/-- sortActions is the concatenation of the four rank buckets of its
input, each in input order. -/
theorem sortActions_eq_buckets (l : List RemovalAction) :
    sortActions l =
      l.filter (fun a => reasonRank a.reason.code == 0) ++
      (l.filter (fun a => reasonRank a.reason.code == 1) ++
      (l.filter (fun a => reasonRank a.reason.code == 2) ++
      l.filter (fun a => reasonRank a.reason.code == 3))) := by
  unfold sortActions
  rw [show l.filter (fun a => a.reason.code == "expired_ephemeral") =
      l.filter (fun a => reasonRank a.reason.code == 0) from
    List.filter_congr (fun a _ => (rank_beq_zero a.reason.code).symm)]
  rw [show l.filter (fun a => a.reason.code == "idle_30d") =
      l.filter (fun a => reasonRank a.reason.code == 1) from
    List.filter_congr (fun a _ => (rank_beq_one a.reason.code).symm)]
  rw [show l.filter (fun a => a.reason.code == "idle_7d") =
      l.filter (fun a => reasonRank a.reason.code == 2) from
    List.filter_congr (fun a _ => (rank_beq_two a.reason.code).symm)]
  rw [show l.filter (fun a =>
        !(a.reason.code == "expired_ephemeral") && !(a.reason.code == "idle_30d") &&
          !(a.reason.code == "idle_7d")) =
      l.filter (fun a => reasonRank a.reason.code == 3) from
    List.filter_congr (fun a _ => (rank_beq_three a.reason.code).symm)]
  simp [List.append_assoc]

/-- Two different rank tests cannot both pass. -/
theorem rank_beq_and_beq (x k i : Nat) (h : k ≠ i) :
    ((x == k) && (x == i)) = false := by
  by_cases hx : x = k
  · subst hx
    simp [beq_iff_eq, h]
  · simp [beq_iff_eq, hx]

/-- Filtering one rank out of a rank bucket of another rank gives nil. -/
theorem filter_rank_bucket_ne (l : List RemovalAction) (k i : Nat) (h : k ≠ i) :
    (l.filter (fun a => reasonRank a.reason.code == i)).filter
      (fun a => reasonRank a.reason.code == k) = [] := by
  rw [List.filter_filter]
  rw [List.filter_eq_nil_iff]
  intro a _
  rw [rank_beq_and_beq _ _ _ h]
  simp

/-- Filtering a rank bucket by its own rank keeps it unchanged. -/
theorem filter_rank_bucket_self (l : List RemovalAction) (k : Nat) :
    (l.filter (fun a => reasonRank a.reason.code == k)).filter
      (fun a => reasonRank a.reason.code == k) =
      l.filter (fun a => reasonRank a.reason.code == k) := by
  rw [List.filter_filter]
  exact List.filter_congr (fun a _ => Bool.and_self _)

/-- C7 helper: the per-rank filters of a sorted action list agree with
those of the unsorted list (stability within each safety class). -/
theorem sortActions_filter_rank (l : List RemovalAction) (k : Nat) :
    (sortActions l).filter (fun a => reasonRank a.reason.code == k) =
      l.filter (fun a => reasonRank a.reason.code == k) := by
  rw [sortActions_eq_buckets]
  rw [List.filter_append, List.filter_append, List.filter_append]
  rcases k with _ | _ | _ | _ | k
  · rw [filter_rank_bucket_self, filter_rank_bucket_ne l 0 1 (by omega),
      filter_rank_bucket_ne l 0 2 (by omega), filter_rank_bucket_ne l 0 3 (by omega)]
    simp
  · rw [filter_rank_bucket_self, filter_rank_bucket_ne l 1 0 (by omega),
      filter_rank_bucket_ne l 1 2 (by omega), filter_rank_bucket_ne l 1 3 (by omega)]
    simp
  · rw [filter_rank_bucket_self, filter_rank_bucket_ne l 2 0 (by omega),
      filter_rank_bucket_ne l 2 1 (by omega), filter_rank_bucket_ne l 2 3 (by omega)]
    simp
  · rw [filter_rank_bucket_self, filter_rank_bucket_ne l 3 0 (by omega),
      filter_rank_bucket_ne l 3 1 (by omega), filter_rank_bucket_ne l 3 2 (by omega)]
    simp
  · rw [filter_rank_bucket_ne l (k + 4) 0 (by omega),
      filter_rank_bucket_ne l (k + 4) 1 (by omega),
      filter_rank_bucket_ne l (k + 4) 2 (by omega),
      filter_rank_bucket_ne l (k + 4) 3 (by omega)]
    rw [List.filter_eq_nil_iff.mpr ?_]
    · simp
    · intro a _
      have hle := reasonRank_le_three a.reason.code
      intro hk
      rw [beq_iff_eq] at hk
      omega

/-- Elements of a rank bucket have exactly that rank. -/
theorem mem_rank_bucket (l : List RemovalAction) (k : Nat) (a : RemovalAction)
    (ha : a ∈ l.filter (fun x => reasonRank x.reason.code == k)) :
    reasonRank a.reason.code = k := by
  rw [List.mem_filter] at ha
  simpa using ha.2

/-- C7 helper: sorted actions have monotonically non-decreasing ranks. -/
theorem sortActions_ranks_sorted (l : List RemovalAction) :
    (sortActions l).Pairwise
      (fun a b => reasonRank a.reason.code ≤ reasonRank b.reason.code) := by
  rw [sortActions_eq_buckets]
  rw [List.pairwise_append]
  refine ⟨?_, ?_, ?_⟩
  · exact List.pairwise_of_forall_mem_list (fun a ha b hb => by
      rw [mem_rank_bucket l 0 a ha, mem_rank_bucket l 0 b hb])
  · rw [List.pairwise_append]
    refine ⟨?_, ?_, ?_⟩
    · exact List.pairwise_of_forall_mem_list (fun a ha b hb => by
        rw [mem_rank_bucket l 1 a ha, mem_rank_bucket l 1 b hb])
    · rw [List.pairwise_append]
      refine ⟨?_, ?_, ?_⟩
      · exact List.pairwise_of_forall_mem_list (fun a ha b hb => by
          rw [mem_rank_bucket l 2 a ha, mem_rank_bucket l 2 b hb])
      · exact List.pairwise_of_forall_mem_list (fun a ha b hb => by
          rw [mem_rank_bucket l 3 a ha, mem_rank_bucket l 3 b hb])
      · intro a ha b hb
        rw [mem_rank_bucket l 2 a ha, mem_rank_bucket l 3 b hb]
        omega
    · intro a ha b hb
      rw [mem_rank_bucket l 1 a ha]
      rcases List.mem_append.mp hb with hb | hb
      · rw [mem_rank_bucket l 2 b hb]; omega
      · rw [mem_rank_bucket l 3 b hb]; omega
  · intro a ha b hb
    rw [mem_rank_bucket l 0 a ha]
    rcases List.mem_append.mp hb with hb | hb
    · rw [mem_rank_bucket l 1 b hb]; omega
    rcases List.mem_append.mp hb with hb | hb
    · rw [mem_rank_bucket l 2 b hb]; omega
    · rw [mem_rank_bucket l 3 b hb]; omega

/-- C7: for every workspace list and policy, the generated cleanup plan's
actions are ordered expired_ephemeral first, then idle_30d, then idle_7d,
then everything else, and within each safety class the actions keep the
input order of the workspaces (the order of the pre-sort evaluation). -/
theorem cleanup_plan_ordering (wss : List Workspace)
    (policy : Workspace → RemovalReason × Bool) :
    ((generatePlan wss policy).actions).Pairwise
      (fun a b => reasonRank a.reason.code ≤ reasonRank b.reason.code) ∧
    ∀ k : Nat,
      (generatePlan wss policy).actions.filter
        (fun a => reasonRank a.reason.code == k) =
      ((evalLoop policy wss).1).filter (fun a => reasonRank a.reason.code == k) :=
  ⟨sortActions_ranks_sorted ((evalLoop policy wss).1),
    fun k => sortActions_filter_rank ((evalLoop policy wss).1) k⟩

/-- The pathToMeta insertion fold looks up the last inserted row with the
requested normalized path, falling back to the initial map. -/
theorem pathToMeta_fold (norm : String → String) :
    ∀ (rows : List WorkspaceMetadata) (acc : String → Option WorkspaceMetadata)
      (k : String),
      (rows.foldl (fun m ws => fun q => if q = norm ws.path then some ws else m q) acc) k =
        (rows.reverse.find? (fun m => norm m.path == k)).or (acc k) := by
  intro rows
  induction rows with
  | nil => intro acc k; simp
  | cons r rs ih =>
    intro acc k
    rw [List.foldl_cons, ih]
    rw [List.reverse_cons, List.find?_append]
    rw [Option.or_assoc]
    congr 1
    simp only [List.find?_cons, List.find?_nil]
    by_cases hk : k = norm r.path
    · rw [if_pos hk]
      rw [show (norm r.path == k) = true from by simp [hk]]
      simp
    · rw [if_neg hk]
      rw [show (norm r.path == k) = false from by simp [beq_iff_eq]; exact fun h => hk h.symm]
      simp

/-- The Go map `pathToMeta` resolves a normalized path to the last
metadata row inserted at it — the spec's "the metadata row whose
normalized path equals the worktree's normalized path". -/
theorem pathToMeta_eq_metaRowFor (norm : String → String)
    (rows : List WorkspaceMetadata) (k : String) :
    pathToMeta norm rows k = metaRowFor norm rows k := by
  unfold pathToMeta metaRowFor
  rw [pathToMeta_fold]
  cases h : rows.reverse.find? (fun m => norm m.path == k) <;> simp [h]

/-- The worktree merge loop is an index-aware map over the worktrees. -/
theorem mergeWorktrees_eq (norm : String → String)
    (gs : String → Option GitStatus) (p2m : String → Option WorkspaceMetadata) :
    ∀ (wts : List Worktree) (i : Nat),
      mergeWorktrees norm gs p2m wts i =
        (List.enumFrom i wts).map (fun p =>
          buildLiveWorkspace ((gs p.2.path).getD zeroGitStatus) (decide (p.1 = 0))
            (p2m (norm p.2.path)) p.2) := by
  intro wts
  induction wts with
  | nil => intro i; rfl
  | cons wt rest ih =>
    intro i
    rw [show List.enumFrom i (wt :: rest) = (i, wt) :: List.enumFrom (i + 1) rest from
      List.enumFrom_cons]
    rw [List.map_cons, ← ih]
    rfl

/-- The orphan loop is a filter-then-map over the metadata rows. -/
theorem orphanLoop_eq (norm : String → String) (wts : List Worktree) :
    ∀ rows : List WorkspaceMetadata,
      orphanLoop norm wts rows =
        (rows.filter (fun m => !(seenPaths norm wts (norm m.path)))).map
          buildBrokenWorkspace := by
  intro rows
  induction rows with
  | nil => rfl
  | cons r rs ih =>
    simp only [orphanLoop]
    by_cases h : seenPaths norm wts (norm r.path) = true
    · rw [if_pos h, ih, List.filter_cons]
      simp [h]
    · rw [if_neg h, ih, List.filter_cons]
      simp [h]

/-- Characterization of List: one merged workspace per live worktree, in
worktree order, each merged with the metadata row at its normalized path;
then one synthetic broken workspace per unseen metadata row, in row
order. -/
theorem listWorkspaces_characterization (norm : String → String)
    (gs : String → Option GitStatus) (wts : List Worktree)
    (rows : List WorkspaceMetadata) :
    listWorkspaces norm gs wts rows =
      wts.enum.map (fun p =>
        buildLiveWorkspace ((gs p.2.path).getD zeroGitStatus) (decide (p.1 = 0))
          (metaRowFor norm rows (norm p.2.path)) p.2) ++
      (rows.filter (fun m => !(seenPaths norm wts (norm m.path)))).map
        buildBrokenWorkspace := by
  unfold listWorkspaces
  rw [mergeWorktrees_eq, orphanLoop_eq]
  congr 1
  exact List.map_congr_left (fun p _ => by rw [pathToMeta_eq_metaRowFor])

/-- C2: List returns exactly one workspace per live worktree (merged with
the metadata row whose normalized path equals the worktree's normalized
path, when one exists) plus exactly one synthetic Broken workspace per
metadata row whose normalized path matches no live worktree; no live
worktree is dropped and no matched metadata row is duplicated. -/
theorem list_merge_completeness (norm : String → String)
    (gs : String → Option GitStatus) (wts : List Worktree)
    (rows : List WorkspaceMetadata) :
    listWorkspaces norm gs wts rows =
      wts.enum.map (fun p =>
        buildLiveWorkspace ((gs p.2.path).getD zeroGitStatus) (decide (p.1 = 0))
          (metaRowFor norm rows (norm p.2.path)) p.2) ++
      (rows.filter (fun m => !(seenPaths norm wts (norm m.path)))).map
        buildBrokenWorkspace ∧
    (listWorkspaces norm gs wts rows).length =
      wts.length +
        (rows.filter (fun m => !(seenPaths norm wts (norm m.path)))).length := by
  refine ⟨listWorkspaces_characterization norm gs wts rows, ?_⟩
  rw [listWorkspaces_characterization norm gs wts rows]
  simp [List.enum_length]

/-- A merged live workspace carries exactly the isPrimary bit it was
built with (metadata merging never touches it). -/
theorem buildLive_isPrimary (s : GitStatus) (b : Bool)
    (m : Option WorkspaceMetadata) (wt : Worktree) :
    (buildLiveWorkspace s b m wt).isPrimary = b := by
  cases m with
  | none => rfl
  | some meta =>
    simp only [buildLiveWorkspace]
    cases flagLookup meta.flags "pinned" <;>
      cases flagLookup meta.flags "ephemeral" <;>
        cases flagLookup meta.flags "locked" <;>
          cases meta.ephemeral <;> rfl

/-- A merged live workspace carries its worktree's path. -/
theorem buildLive_path (s : GitStatus) (b : Bool)
    (m : Option WorkspaceMetadata) (wt : Worktree) :
    (buildLiveWorkspace s b m wt).path = wt.path := by
  cases m with
  | none => rfl
  | some meta =>
    simp only [buildLiveWorkspace]
    cases flagLookup meta.flags "pinned" <;>
      cases flagLookup meta.flags "ephemeral" <;>
        cases flagLookup meta.flags "locked" <;>
          cases meta.ephemeral <;> rfl

/-- A synthetic broken workspace is never primary. -/
theorem buildBroken_isPrimary (m : WorkspaceMetadata) :
    (buildBrokenWorkspace m).isPrimary = false := by
  simp only [buildBrokenWorkspace]
  cases flagLookup m.flags "pinned" <;>
    cases flagLookup m.flags "ephemeral" <;>
      cases m.ephemeral <;> rfl

/-- C3: whenever the worktree listing is non-empty, exactly one workspace
in the List result has IsPrimary = true — the one built from the first
worktree entry — and every other merged or synthetic workspace has
IsPrimary = false. -/
theorem primary_uniqueness (norm : String → String)
    (gs : String → Option GitStatus) (wts : List Worktree)
    (rows : List WorkspaceMetadata) (hne : wts ≠ []) :
    (listWorkspaces norm gs wts rows).countP (fun ws => ws.isPrimary) = 1 ∧
    (∃ h0 : 0 < (listWorkspaces norm gs wts rows).length,
      ((listWorkspaces norm gs wts rows).get ⟨0, h0⟩).isPrimary = true ∧
      ((listWorkspaces norm gs wts rows).get ⟨0, h0⟩).path = (wts.head hne).path) ∧
    ∀ j, (hj : j < (listWorkspaces norm gs wts rows).length) → j ≠ 0 →
      ((listWorkspaces norm gs wts rows).get ⟨j, hj⟩).isPrimary = false := by
  rcases wts with _ | ⟨w, rest⟩
  · exact absurd rfl hne
  rw [listWorkspaces_characterization]
  rw [List.enum_cons, List.map_cons, List.cons_append]
  have htail1 : ∀ ws ∈ (List.enumFrom 1 rest).map (fun p =>
      buildLiveWorkspace ((gs p.2.path).getD zeroGitStatus) (decide (p.1 = 0))
        (metaRowFor norm rows (norm p.2.path)) p.2), ws.isPrimary = false := by
    intro ws hws
    rcases List.mem_map.mp hws with ⟨p, hp, rfl⟩
    rcases p with ⟨i, wt⟩
    have := (List.mem_enumFrom hp).1
    rw [buildLive_isPrimary]
    simp
    omega
  have htail2 : ∀ ws ∈ (rows.filter
      (fun m => !(seenPaths norm (w :: rest) (norm m.path)))).map
        buildBrokenWorkspace, ws.isPrimary = false := by
    intro ws hws
    rcases List.mem_map.mp hws with ⟨m, _, rfl⟩
    exact buildBroken_isPrimary m
  refine ⟨?_, ?_, ?_⟩
  · rw [List.countP_cons, List.countP_append]
    rw [List.countP_eq_zero.mpr (fun a ha => by rw [htail1 a ha]; simp)]
    rw [List.countP_eq_zero.mpr (fun a ha => by rw [htail2 a ha]; simp)]
    rw [buildLive_isPrimary]
    simp
  · refine ⟨by simp, ?_, ?_⟩
    · rw [show ∀ (x : Workspace) (l : List Workspace) (h : 0 < (x :: l).length),
          (x :: l).get ⟨0, h⟩ = x from fun x l h => rfl]
      rw [buildLive_isPrimary]
      simp
    · rw [show ∀ (x : Workspace) (l : List Workspace) (h : 0 < (x :: l).length),
          (x :: l).get ⟨0, h⟩ = x from fun x l h => rfl]
      rw [buildLive_path]
      rfl
  · intro j hj hj0
    rcases j with _ | j
    · exact absurd rfl hj0
    rw [List.get_eq_getElem, List.getElem_cons_succ]
    have hj' : j < ((List.enumFrom 1 rest).map (fun p =>
        buildLiveWorkspace ((gs p.2.path).getD zeroGitStatus) (decide (p.1 = 0))
          (metaRowFor norm rows (norm p.2.path)) p.2) ++
        (rows.filter (fun m => !(seenPaths norm (w :: rest) (norm m.path)))).map
          buildBrokenWorkspace).length := by
      simp only [List.length_cons] at hj
      omega
    by_cases hcase : j < ((List.enumFrom 1 rest).map (fun p =>
        buildLiveWorkspace ((gs p.2.path).getD zeroGitStatus) (decide (p.1 = 0))
          (metaRowFor norm rows (norm p.2.path)) p.2)).length
    · rw [List.getElem_append_left hcase]
      exact htail1 _ (List.getElem_mem _)
    · rw [List.getElem_append_right (by omega)]
      exact htail2 _ (List.getElem_mem _)

/-- Witness for C3: one live worktree and one orphaned metadata row. -/
theorem primary_uniqueness_witness :
    (listWorkspaces idNorm noStatus [wtMain] [rowGone]).countP
      (fun ws => ws.isPrimary) = 1 ∧
    (∃ h0 : 0 < (listWorkspaces idNorm noStatus [wtMain] [rowGone]).length,
      ((listWorkspaces idNorm noStatus [wtMain] [rowGone]).get ⟨0, h0⟩).isPrimary = true ∧
      ((listWorkspaces idNorm noStatus [wtMain] [rowGone]).get ⟨0, h0⟩).path =
        (([wtMain] : List Worktree).head (by simp)).path) ∧
    ∀ j, (hj : j < (listWorkspaces idNorm noStatus [wtMain] [rowGone]).length) →
      j ≠ 0 →
      ((listWorkspaces idNorm noStatus [wtMain] [rowGone]).get ⟨j, hj⟩).isPrimary =
        false :=
  primary_uniqueness idNorm noStatus [wtMain] [rowGone] (by simp)

/-- Structural facts about the Acquire retry loop's sleep trace, for any
interval reachable from the initial 10ms: every sleep is at most 160ms,
the first sleep equals the current interval, and consecutive sleeps are
related by the source's doubling-below-100ms update. -/
theorem acquireLoop_sleeps_props (flock : Nat → FlockResult) (path : String)
    (timeout : Nat) :
    ∀ (attempt elapsed interval : Nat) (hi : 10 ≤ interval),
      (interval = 10 ∨ interval = 20 ∨ interval = 40 ∨ interval = 80 ∨ interval = 160) →
      ((acquireLoop flock path timeout attempt elapsed interval hi).sleeps.all
        (fun s => decide (s ≤ 160)) = true ∧
      (acquireLoop flock path timeout attempt elapsed interval hi).sleeps.head?.getD
        interval = interval ∧
      List.Chain' (fun a b => b = nextPollInterval a)
        (acquireLoop flock path timeout attempt elapsed interval hi).sleeps) := by
  refine acquireLoop.induct flock path timeout
    (fun attempt elapsed interval hi =>
      (interval = 10 ∨ interval = 20 ∨ interval = 40 ∨ interval = 80 ∨ interval = 160) →
      ((acquireLoop flock path timeout attempt elapsed interval hi).sleeps.all
        (fun s => decide (s ≤ 160)) = true ∧
      (acquireLoop flock path timeout attempt elapsed interval hi).sleeps.head?.getD
        interval = interval ∧
      List.Chain' (fun a b => b = nextPollInterval a)
        (acquireLoop flock path timeout attempt elapsed interval hi).sleeps))
    ?_ ?_ ?_ ?_
  · intro attempt elapsed interval hi hf _ _
    rw [acquireLoop.eq_1, hf]
    exact ⟨rfl, rfl, List.chain'_nil⟩
  · intro attempt elapsed interval hi msg hf _ _
    rw [acquireLoop.eq_1, hf]
    exact ⟨rfl, rfl, List.chain'_nil⟩
  · intro attempt elapsed interval hi hf ht _ _
    rw [acquireLoop.eq_1, hf]
    rw [dif_pos ht]
    exact ⟨rfl, rfl, List.chain'_nil⟩
  · intro attempt elapsed interval hi hf ht _ ih hP
    have hP' : nextPollInterval interval = 10 ∨ nextPollInterval interval = 20 ∨
        nextPollInterval interval = 40 ∨ nextPollInterval interval = 80 ∨
        nextPollInterval interval = 160 := by
      rcases hP with h | h | h | h | h <;> subst h <;> decide
    have hrest := ih hP'
    rw [acquireLoop.eq_1, hf]
    rw [dif_neg ht]
    refine ⟨?_, rfl, ?_⟩
    · rw [List.all_cons]
      rw [hrest.1]
      have : interval ≤ 160 := by rcases hP with h | h | h | h | h <;> omega
      simp [this]
    · rw [List.chain'_cons']
      refine ⟨?_, hrest.2.2⟩
      intro y hy
      have := hrest.2.1
      cases hh : (acquireLoop flock path timeout (attempt + 1) (elapsed + interval)
          (nextPollInterval interval) (by unfold nextPollInterval; split <;> omega)).sleeps.head? with
      | none =>
        rw [hh] at hy
        exact absurd hy (by simp)
      | some z =>
        rw [hh] at hy this
        simp only [Option.getD_some] at this
        simp only [Option.mem_def, Option.some.injEq] at hy
        omega

/-- On a schedule where the lock is always held elsewhere, the retry loop
always ends in the typed lock-timed-out error. -/
theorem acquireLoop_blocked_result (path : String) (timeout : Nat) :
    ∀ (attempt elapsed interval : Nat) (hi : 10 ≤ interval),
      (acquireLoop alwaysBlocked path timeout attempt elapsed interval hi).result =
        Except.error (lockTimedOutError path timeout) := by
  refine acquireLoop.induct alwaysBlocked path timeout
    (fun attempt elapsed interval hi =>
      (acquireLoop alwaysBlocked path timeout attempt elapsed interval hi).result =
        Except.error (lockTimedOutError path timeout))
    ?_ ?_ ?_ ?_
  · intro attempt elapsed interval hi hf _
    exact absurd hf (by simp [alwaysBlocked])
  · intro attempt elapsed interval hi msg hf _
    exact absurd hf (by simp [alwaysBlocked])
  · intro attempt elapsed interval hi hf ht _
    rw [acquireLoop.eq_1, hf, dif_pos ht]
  · intro attempt elapsed interval hi hf ht _ ih
    rw [acquireLoop.eq_1, hf, dif_neg ht]
    exact ih

/-- C6 counterexample: with the lock held by another process and a 400ms
timeout, the Acquire retry loop performs a 160ms sleep — the backoff
interval does exceed 100ms, refuting the claimed 100ms cap. -/
theorem acquire_interval_exceeds_claimed_cap :
    160 ∈ (acquire alwaysBlocked true "lock" 400).sleeps ∧ ¬(160 ≤ 100) := by
  constructor
  · have h : (acquire alwaysBlocked true "lock" 400).sleeps =
        [10, 20, 40, 80, 160, 160] := by
      simp [acquire, acquireLoop, alwaysBlocked, nextPollInterval]
    rw [h]
    simp
  · omega

/-- C6 amended: the retry interval starts at 10ms and follows the
source's update rule — doubling while below 100ms, then frozen — so it is
bounded by 160ms (not 100ms); and when the deadline passes, Acquire
returns a locked-kind lock-timed-out error, distinct from the config-kind
error returned when opening the lock file fails. -/
theorem acquire_backoff_and_timeout_kinds (flock : Nat → FlockResult)
    (openOk : Bool) (path : String) (timeout : Nat) :
    ((acquire flock openOk path timeout).sleeps.all
      (fun s => decide (s ≤ 160)) = true) ∧
    ((acquire flock openOk path timeout).sleeps.head?.getD 10 = 10) ∧
    List.Chain' (fun a b => b = nextPollInterval a)
      (acquire flock openOk path timeout).sleeps ∧
    (acquire alwaysBlocked true path timeout).result =
      Except.error (lockTimedOutError path timeout) ∧
    (lockTimedOutError path timeout).code = ErrorCode.locked ∧
    (acquire flock false path timeout).result =
      Except.error (openLockFailedError path) ∧
    (openLockFailedError path).code = ErrorCode.config ∧
    ErrorCode.locked ≠ ErrorCode.config := by
  refine ⟨?_, ?_, ?_,
    acquireLoop_blocked_result path timeout 0 0 10 (by omega), rfl, rfl, rfl,
    by decide⟩
  · cases openOk with
    | false => rfl
    | true =>
      exact (acquireLoop_sleeps_props flock path timeout 0 0 10 (by omega)
        (Or.inl rfl)).1
  · cases openOk with
    | false => rfl
    | true =>
      exact (acquireLoop_sleeps_props flock path timeout 0 0 10 (by omega)
        (Or.inl rfl)).2.1
  · cases openOk with
    | false => exact List.chain'_nil
    | true =>
      exact (acquireLoop_sleeps_props flock path timeout 0 0 10 (by omega)
        (Or.inl rfl)).2.2

end Yagwt
